import Mathlib

/-!
Shallow embedding of `game.py` (ASCII arcade game) and proofs about the
behaviour of its physics / collision / lifecycle functions.

Conventions of the embedding:
* Python floats are modelled as exact rationals (`ℚ`); all float
  arithmetic appearing in the claims is addition, negation, comparison
  and rounding, which the rationals model exactly.
* Python `math.sqrt` (used only inside `set_direction` to rescale the
  velocity vector) has no exact rational counterpart; it is modelled by
  the rational approximation `Rat.sqrt`.  No theorem below depends on the
  approximate value: the claims touch only the error guard of
  `set_direction` (which we embed by the exact squared comparison) and
  places where the scalar `speed` factor makes the quotient `0`.
* Mutation is modelled by explicit state passing: every mutating method
  returns the updated record.
* Raised exceptions are modelled with `Except GameError`; each Python
  `raise` site gets its own constructor, carrying the data that the
  Python message interpolates (expected vs. actual dimensions etc.).
* Python `None` sentinels (`set_position(None, None)`, and the
  `x_speed_save` attributes that exist only after the first `stop()`)
  are modelled with `Option`.
-/

/-- Errors raised by the embedded code.  Each constructor corresponds to one
`raise` site of `game.py`, carrying the values interpolated into the Python
message. -/
inductive GameError where
  /-- `ValueError("Bad direction, vector size too small ...")` in
  `Model.set_direction`. -/
  | badDirection : GameError
  /-- `RuntimeError("Initial position not set ...")` in `Model.move`. -/
  | positionNotSet : GameError
  /-- `RuntimeError("Bad x ...")` in `Model.move` (out of bounds after the
  bounce reflection). -/
  | badBounceX : GameError
  /-- `RuntimeError("Bad y ...")` in `Model.move`. -/
  | badBounceY : GameError
  /-- `ValueError("strings[] array unexpected length: {actual} expect
  {expected} ...")` in `MultiCharObj.__init__`. -/
  | badRows (actual expected : ℤ) : GameError
  /-- `ValueError("string unexpected length: {actual} expect {expected}
  ...")` in `MultiCharObj.__init__`. -/
  | badRowLen (actual expected : ℤ) : GameError
  /-- `TypeError("player_health_max must be int ...")` in
  `MakeAndInstallPlayerHealthObject`. -/
  | maxHealthNotInt : GameError
  /-- `ValueError("player_health_max must be an odd integer ...")` in
  `MakeAndInstallPlayerHealthObject`. -/
  | maxHealthEven (got : ℤ) : GameError
  /-- A `TypeError` Python would raise when arithmetic (`round`, `+`) hits a
  `None` position. -/
  | noneArithmetic : GameError
  /-- An `IndexError` Python would raise on `strings[0]` of an empty list
  (`UpdatePlayerHealth`). -/
  | emptyStrings : GameError
  /-- An `AttributeError` Python would raise reading `x_speed_save` before
  any `stop()` call (`Model.resume`). -/
  | neverStopped : GameError
deriving DecidableEq, Repr

/-- `class EdgeStrategy`: what to do when you reach the edge of the screen. -/
inductive EdgeStrategy where
  /-- Quietly disappear from the scene. -/
  | disappear : EdgeStrategy
  /-- Bounce in the opposite direction as if hitting a wall. -/
  | bounce : EdgeStrategy
deriving DecidableEq, Repr

/-- `DEFAULT_INITIAL_HEALTH = 5`. -/
def DEFAULT_INITIAL_HEALTH : ℤ := 5

/-- `PLAYER_HEALTH_MAX = DEFAULT_INITIAL_HEALTH`. -/
def PLAYER_HEALTH_MAX : ℤ := DEFAULT_INITIAL_HEALTH

/-- `LASER_RELOAD_TIME_SEC = 0.5`. -/
def LASER_RELOAD_TIME_SEC : ℚ := 1/2

/-- State of `class Model`, the base class for objects placed in the game.
Fields are exactly the attributes the Python constructor and methods create.
`x`/`y` are `Option` because `__init__` sets them to `None`;
`x_speed_save`/`y_speed_save` are `Option` because Python creates those
attributes only inside the first call to `stop()`. -/
structure Model where
  x_radius : ℤ
  y_radius : ℤ
  x : Option ℚ
  y : Option ℚ
  saved_speed : ℚ
  speed : ℚ
  x_speed : ℚ
  y_speed : ℚ
  x_speed_save : Option ℚ
  y_speed_save : Option ℚ
  edge_strategy : EdgeStrategy
  can_collide : Bool
  z_index : ℤ
  health : ℤ
  damage : ℤ
  label : String
deriving DecidableEq, Repr

/-- `Model.set_label`. -/
def Model.set_label (m : Model) (l : String) : Model := { m with label := l }

/-- `Model.set_damage`. -/
def Model.set_damage (m : Model) (d : ℤ) : Model := { m with damage := d }

/-- `Model.set_health`. -/
def Model.set_health (m : Model) (h : ℤ) : Model := { m with health := h }

/-- `Model.set_z_index`. -/
def Model.set_z_index (m : Model) (z : ℤ) : Model := { m with z_index := z }

/-- `Model.set_radius`. -/
def Model.set_radius (m : Model) (x_radius y_radius : ℤ) : Model :=
  { m with x_radius := x_radius, y_radius := y_radius }

/-- `Model.set_position` (coordinates of the middle of the object; `none`
models Python `None`). -/
def Model.set_position (m : Model) (x y : Option ℚ) : Model :=
  { m with x := x, y := y }

/-- `Model.set_speed`: sets both `saved_speed` and `speed`. -/
def Model.set_speed (m : Model) (speed : ℚ) : Model :=
  { m with saved_speed := speed, speed := speed }

/-- `Model.set_direction`: raises `ValueError` when
`math.sqrt(x*x + y*y) < 0.001`; since both sides are nonnegative this is
exactly the rational comparison `x*x + y*y < (1/1000)^2`, which is how we
embed the guard.  On success the velocity components become
`speed * x / direction_len` and `speed * y / direction_len`; the float
`math.sqrt` is modelled by `Rat.sqrt` (see the file comment). -/
def Model.set_direction (m : Model) (x y : ℚ) : Except GameError Model :=
  if x*x + y*y < 1/1000000 then
    Except.error GameError.badDirection
  else
    let direction_len := Rat.sqrt (x*x + y*y)
    Except.ok { m with
      x_speed := m.speed * x / direction_len,
      y_speed := m.speed * y / direction_len }

/-- `Model.stop`: saves the current velocity components (creating /
overwriting `x_speed_save`, `y_speed_save`) and zeroes the velocity. -/
def Model.stop (m : Model) : Model :=
  { m with
    x_speed_save := some m.x_speed, x_speed := 0,
    y_speed_save := some m.y_speed, y_speed := 0 }

/-- `Model.resume`: if currently moving (`|x_speed| + |y_speed| > 0`) does
nothing; otherwise restores the saved velocity.  Reading the saved attributes
before any `stop()` would be a Python `AttributeError`, modelled by the
`neverStopped` error. -/
def Model.resume (m : Model) : Except GameError Model :=
  if |m.x_speed| + |m.y_speed| > 0 then
    Except.ok m
  else
    match m.x_speed_save, m.y_speed_save with
    | some xs, some ys => Except.ok { m with x_speed := xs, y_speed := ys }
    | _, _ => Except.error GameError.neverStopped

/-- `Model.x_in_bounds`: would the object, put at horizontal position `x`,
still fully fit on the screen horizontally? -/
def Model.x_in_bounds (m : Model) (x : ℚ) (screen_width : ℤ) : Prop :=
  0 ≤ x - (m.x_radius : ℚ) ∧ x + (m.x_radius : ℚ) ≤ (screen_width : ℚ) - 1

instance (m : Model) (x : ℚ) (w : ℤ) : Decidable (m.x_in_bounds x w) := by
  unfold Model.x_in_bounds; infer_instance

/-- `Model.y_in_bounds`. -/
def Model.y_in_bounds (m : Model) (y : ℚ) (screen_height : ℤ) : Prop :=
  0 ≤ y - (m.y_radius : ℚ) ∧ y + (m.y_radius : ℚ) ≤ (screen_height : ℚ) - 1

instance (m : Model) (y : ℚ) (h : ℤ) : Decidable (m.y_in_bounds y h) := by
  unfold Model.y_in_bounds; infer_instance

/-- `Model.propose_move`: proposed new position from position and speed. -/
def Model.propose_move (x y x_speed y_speed : ℚ) : ℚ × ℚ :=
  (x + x_speed, y + y_speed)

/-- `Model.move`: computes and commits the new coordinates.  Returns
`false` when the object should disappear from the game, `true` otherwise;
raises when the position was never set, and when the position is still out
of bounds after the bounce reflection.  (`x_inside` / `y_inside` of the
source are inlined as the `x_in_bounds` / `y_in_bounds` tests on the
tentative position `t`.) -/
def Model.move (m : Model) (screen_height screen_width : ℤ) :
    Except GameError (Bool × Model) :=
  match m.x, m.y with
  | some mx, some my =>
    let t := Model.propose_move mx my m.x_speed m.y_speed
    if ¬(m.x_in_bounds t.1 screen_width ∧ m.y_in_bounds t.2 screen_height) ∧
        m.edge_strategy = EdgeStrategy.disappear then
      Except.ok (false, m)
    else
      let m1 := if ¬ m.x_in_bounds t.1 screen_width then
        { m with x_speed := -m.x_speed } else m
      let m2 := if ¬ m.y_in_bounds t.2 screen_height then
        { m1 with y_speed := -m1.y_speed } else m1
      let p := Model.propose_move mx my m2.x_speed m2.y_speed
      let m3 := { m2 with x := some p.1, y := some p.2 }
      if ¬ m3.x_in_bounds p.1 screen_width then
        Except.error GameError.badBounceX
      else if ¬ m3.y_in_bounds p.2 screen_height then
        Except.error GameError.badBounceY
      else
        Except.ok (true, m3)
  | _, _ => Except.error GameError.positionNotSet

/-- `Model.set_edge_strategy`. -/
def Model.set_edge_strategy (m : Model) (strategy : EdgeStrategy) : Model :=
  { m with edge_strategy := strategy }

/-- `Model.set_can_collide`. -/
def Model.set_can_collide (m : Model) (collide : Bool) : Model :=
  { m with can_collide := collide }

/-- `Model.__init__`: the record produced by the constructor's setter chain.
`set_direction(1, 1)` runs with `speed = 0`, so both velocity components are
`0 * 1 / sqrt 2 = 0`; `x_speed_save`/`y_speed_save` do not exist yet
(`none`). -/
def Model.init : Model :=
  { x_radius := 0, y_radius := 0,                -- set_radius(0, 0)
    x := none, y := none,                        -- set_position(None, None)
    saved_speed := 0, speed := 0,                -- set_speed(0)
    x_speed := 0, y_speed := 0,                  -- set_direction(1, 1)
    x_speed_save := none, y_speed_save := none,
    edge_strategy := EdgeStrategy.bounce,        -- set_edge_strategy(BOUNCE)
    can_collide := true,                         -- set_can_collide(True)
    z_index := 1,                                -- set_z_index(1)
    health := DEFAULT_INITIAL_HEALTH,            -- set_health(5)
    damage := 1,                                 -- set_damage(1)
    label := "" }                                -- set_label('')

deriving instance DecidableEq for Except

/-- `class MultiCharObj(Model)`: the graphical representation of an object;
adds the list of text rows used to render it. -/
structure MultiCharObj extends Model where
  strings : List String
deriving DecidableEq, Repr

/-- `MultiCharObj.__init__(x_radius, y_radius, strings)`: runs the base
constructor, validates the appearance dimensions against the radii (raising
a `ValueError` carrying actual vs. expected sizes — the row count first,
then the first row of the wrong width, exactly like the source's `for`
loop), then commits the radii and the strings. -/
def mkMultiCharObj (x_radius y_radius : ℤ) (strings : List String) :
    Except GameError MultiCharObj :=
  if (strings.length : ℤ) ≠ 2*y_radius + 1 then
    Except.error (GameError.badRows (strings.length) (2*y_radius + 1))
  else
    match strings.find? (fun s => decide ((s.length : ℤ) ≠ 2*x_radius + 1)) with
    | some s => Except.error (GameError.badRowLen (s.length) (2*x_radius + 1))
    | none =>
      Except.ok
        { toModel := (Model.init.set_radius x_radius y_radius),
          strings := strings }

/-- `class Ball(MultiCharObj)`: an object exactly one character big. -/
def mkBall (char : Char) : Except GameError MultiCharObj :=
  mkMultiCharObj 0 0 [String.mk [char]]

/-- `class TankPlayer(MultiCharObj)`: the main player; adds the
`laser_shot_time` attribute (initialised to `0` by the constructor). -/
structure TankPlayer extends MultiCharObj where
  laser_shot_time : ℚ
deriving DecidableEq, Repr

/-- `TankPlayer.__init__`. -/
def mkTankPlayer (x_radius y_radius : ℤ) (strings : List String) :
    Except GameError TankPlayer := do
  let m ← mkMultiCharObj x_radius y_radius strings
  Except.ok { toMultiCharObj := m, laser_shot_time := 0 }

/-- `TankPlayer.shoot_laser`: the current wall-clock reading `time.time()`
is passed in explicitly as `time_now`.  Returns the laser projectile (or
`none` while the gun is reloading) together with the updated player.
Building the laser reads the player's position, which would be a Python
`TypeError` were it unset. -/
def TankPlayer.shoot_laser (p : TankPlayer) (time_now : ℚ) :
    Except GameError (Option MultiCharObj × TankPlayer) :=
  if time_now < p.laser_shot_time + LASER_RELOAD_TIME_SEC then
    Except.ok (none, p)
  else
    match p.x, p.y with
    | some px, some py => do
      let p1 : TankPlayer := { p with laser_shot_time := time_now }
      let ball ← mkBall '/'
      let laserM := ball.toModel.set_label ("B")
      -- Start the laser a bit above you, don't want to shoot yourself.
      let laserM := laserM.set_position (some (px + 2)) (some (py - 2))
      let laserM := laserM.set_speed (3/2)
      let laserM ← laserM.set_direction 1 (-1)
      let laserM := laserM.set_edge_strategy EdgeStrategy.disappear
      Except.ok (some { ball with toModel := laserM }, p1)
    | _, _ => Except.error GameError.noneArithmetic

/-- Python 3 `round` on a rational (as in `int(round(pos))` of
`HaveObjectsCollided`): nearest integer, ties to the even integer. -/
def pythonRound (q : ℚ) : ℤ :=
  if q - ⌊q⌋ < 1/2 then ⌊q⌋
  else if 1/2 < q - ⌊q⌋ then ⌊q⌋ + 1
  else if 2 ∣ ⌊q⌋ then ⌊q⌋ else ⌊q⌋ + 1

/-- The four early-return separation tests of `HaveObjectsCollided`, on the
rounded centers (`a_x`, `a_y`, `b_x`, `b_y`) and the radii of `a` and
`b`. -/
def aabbOverlap (a_x a_y a_xr a_yr b_x b_y b_xr b_yr : ℤ) : Bool :=
  -- 1. Leftmost part of a is to the right of rightmost part of b
  if a_x - a_xr > b_x + b_xr then false
  -- 2. Rightmost part of a is to the left of leftmost part of b
  else if a_x + a_xr < b_x - b_xr then false
  -- 3. Bottom of a is above top of b
  else if a_y - a_yr > b_y + b_yr then false
  -- 4. Top of a is below bottom of b
  else if a_y + a_yr < b_y - b_yr then false
  else true

/-- `HaveObjectsCollided(a, b)`: always `False` if either object is
non-collidable; otherwise rounds both positions to integer cells and runs
the separation tests.  Rounding an unset (`None`) position would be a
Python `TypeError`. -/
def HaveObjectsCollided (a b : Model) : Except GameError Bool :=
  if !(a.can_collide && b.can_collide) then
    Except.ok false
  else
    match a.x, a.y, b.x, b.y with
    | some ax, some ay, some bx, some bY =>
      Except.ok (aabbOverlap (pythonRound ax) (pythonRound ay) a.x_radius a.y_radius
        (pythonRound bx) (pythonRound bY) b.x_radius b.y_radius)
    | _, _, _, _ => Except.error GameError.noneArithmetic

/-- The index pairs `(i, j)` visited by the nested `while` loops of
`RunCollisionDetection`: `i` ascending over `0, …, n-1`, and for each `i`
the inner loop walks `j = i+1, …, n-1` (which is `(List.range n).filter
(i < ·)`, in increasing order).  The list length `n` never changes inside
the loops. -/
def pairsList (n : ℕ) : List (ℕ × ℕ) :=
  (List.range n).flatMap fun i =>
    ((List.range n).filter fun j => decide (i < j)).map fun j => (i, j)

/-- The body of the inner loop of `RunCollisionDetection` for the index
pair `(i, j)`: `oi, oj = objects[i], objects[j]`; on an overlapping pair
with differing labels, `oi.health -= oj.damage` and `oj.health -=
oi.damage` (the `damage` fields are never mutated, so reading them from
the pre-update objects is exact).  Index accesses use `getD` with a dummy
default; the loop bounds keep the indices in range. -/
def collisionStep (objects : List Model) (p : ℕ × ℕ) :
    Except GameError (List Model) := do
  let oi := objects.getD p.1 Model.init
  let oj := objects.getD p.2 Model.init
  let c ← HaveObjectsCollided oi oj
  if c = true ∧ oi.label ≠ oj.label then
    Except.ok ((objects.set p.1 { oi with health := oi.health - oj.damage }).set
      p.2 { oj with health := oj.health - oi.damage })
  else
    Except.ok objects

/-- `RunCollisionDetection(objects)`: brute-force pairwise collision check,
doing each unordered pair once, with the health subtraction for the
collisions it detects.  (The Python function mutates in place and returns
`None`; the embedding returns the updated collection.) -/
def RunCollisionDetection (objects : List Model) : Except GameError (List Model) :=
  (pairsList objects.length).foldlM collisionStep objects

/-- The `while` loop of `RemoveDeadObjects`, at loop counter `i`, with the
removed objects accumulated (in removal order) in `removed`: a dead object
is deleted from the collection (`del objects[i]`, i.e. `eraseIdx`) and `i`
is left in place (`i -= 1` then `i += 1`); otherwise `i` advances. -/
def removeDeadFrom (objects : List Model) (i : ℕ) (removed : List Model) :
    List Model × List Model :=
  if h : i < objects.length then
    let obj := objects.get ⟨i, h⟩
    if obj.health ≤ 0 then
      removeDeadFrom (objects.eraseIdx i) i (removed ++ [obj])
    else
      removeDeadFrom objects (i + 1) removed
  else
    (objects, removed)
termination_by objects.length - i
decreasing_by
  · rw [List.length_eraseIdx_of_lt h]; omega
  · omega

/-- `RemoveDeadObjects(objects)`: prunes the dead objects (health ≤ 0) in
place and returns the set of removed objects.  (The Python `set` is
modelled as the list of removals in removal order; the function returns
the pruned collection together with it.) -/
def RemoveDeadObjects (objects : List Model) : List Model × List Model :=
  removeDeadFrom objects 0 []

/-- Python string repetition `c * n` (`n ≤ 0` gives the empty string). -/
def pyRepeat (c : Char) (n : ℤ) : String :=
  String.mk (List.replicate n.toNat c)

/-- `UpdatePlayerHealth(player, player_health_obj)`: reads the current
width from `strings[0]` (an `IndexError` were the list empty) and replaces
the appearance with `'X' * health + ' ' * (max_health - health)`. -/
def UpdatePlayerHealth (player : Model) (player_health_obj : MultiCharObj) :
    Except GameError MultiCharObj :=
  match player_health_obj.strings with
  | s0 :: _ =>
    Except.ok { player_health_obj with
      strings := [pyRepeat 'X' player.health ++
        pyRepeat ' ' ((s0.length : ℤ) - player.health)] }
  | [] => Except.error GameError.emptyStrings

/-- `MakePlayerHealthObject(player_health_max)`: the right-sized
`MultiCharObj` showing `'X' * player_health_max`.  Python's
`int(player_health_max / 2)` truncates the quotient toward zero, which is
`Int.tdiv`. -/
def MakePlayerHealthObject (player_health_max : ℤ) : Except GameError MultiCharObj :=
  mkMultiCharObj (Int.tdiv player_health_max 2) 0 [pyRepeat 'X' player_health_max]

/-- A dynamically-typed Python number argument: an `int` or a non-`int`
(float) value, as distinguished by the `isinstance(…, int)` check of
`MakeAndInstallPlayerHealthObject`. -/
inductive PyVal where
  | int (n : ℤ) : PyVal
  | float (q : ℚ) : PyVal
deriving DecidableEq, Repr

/-- `MakeAndInstallPlayerHealthObject(player, objects, player_health_max)`:
validates that the max health is an odd `int`, then builds the static
"HEALTH = " label and the dynamic indicator, appends both to `objects`,
and returns the handle to the dynamic one (here: together with the grown
collection; the `player` argument is unused by the source body). -/
def MakeAndInstallPlayerHealthObject (_player : Option Model)
    (objects : List MultiCharObj) (player_health_max : PyVal) :
    Except GameError (MultiCharObj × List MultiCharObj) :=
  match player_health_max with
  | PyVal.float _ => Except.error GameError.maxHealthNotInt
  | PyVal.int n =>
    if n % 2 = 0 then
      Except.error (GameError.maxHealthEven n)
    else do
      let label ← mkMultiCharObj 4 0 [("HEALTH = ")]
      let labelM := (label.toModel.set_position (some 4) (some 0)).set_can_collide false
      let labelObj : MultiCharObj := { label with toModel := labelM }
      let player_health ← MakePlayerHealthObject n
      let phM := ((player_health.toModel.set_position (some 12) (some 0)).set_can_collide
        false).set_z_index 3
      let phObj : MultiCharObj := { player_health with toModel := phM }
      Except.ok (phObj, objects ++ [labelObj, phObj])

/-! ### Helper lemmas -/

theorem removeDeadFrom_spec :
    ∀ (n : ℕ) (objects : List Model) (i : ℕ) (removed : List Model),
      objects.length - i ≤ n →
      removeDeadFrom objects i removed =
        (objects.take i ++ (objects.drop i).filter (fun o => decide (0 < o.health)),
         removed ++ (objects.drop i).filter (fun o => decide (o.health ≤ 0))) := by
  intro n
  induction n with
  | zero =>
    intro objects i removed hn
    have hle : objects.length ≤ i := by omega
    rw [removeDeadFrom, dif_neg (by omega), List.take_of_length_le hle,
      List.drop_eq_nil_of_le hle]
    simp
  | succ n ih =>
    intro objects i removed hn
    rw [removeDeadFrom]
    by_cases h : i < objects.length
    · rw [dif_pos h]
      simp only [List.get_eq_getElem]
      have hdrop : objects.drop i = objects[i] :: objects.drop (i + 1) :=
        List.drop_eq_getElem_cons h
      have htake1 : objects.take (i + 1) = objects.take i ++ [objects[i]] := by
        rw [List.take_succ, List.getElem?_eq_getElem h]
        rfl
      by_cases hd : objects[i].health ≤ 0
      · rw [if_pos hd]
        have herase : objects.eraseIdx i = objects.take i ++ objects.drop (i + 1) :=
          List.eraseIdx_eq_take_drop_succ objects i
        have htake : (objects.eraseIdx i).take i = objects.take i := by
          rw [herase, List.take_left' (by simp [List.length_take]; omega)]
        have hdrop2 : (objects.eraseIdx i).drop i = objects.drop (i + 1) := by
          rw [herase, List.drop_left' (by simp [List.length_take]; omega)]
        have hpos : ¬ (0 < objects[i].health) := by omega
        rw [ih _ _ _ (by rw [List.length_eraseIdx_of_lt h]; omega), htake, hdrop2, hdrop,
          List.filter_cons, List.filter_cons]
        rw [if_neg (by simp [hpos]), if_pos (by simp [hd])]
        simp
      · rw [if_neg hd]
        have hpos : 0 < objects[i].health := by omega
        rw [ih _ _ _ (by omega), hdrop, List.filter_cons, List.filter_cons, htake1]
        rw [if_pos (by simp [hpos]), if_neg (by simp [hd])]
        simp only [List.append_assoc, List.singleton_append]
    · rw [dif_neg h]
      have hle : objects.length ≤ i := by omega
      rw [List.take_of_length_le hle, List.drop_eq_nil_of_le hle]
      simp

theorem aabbOverlap_comm (a_x a_y a_xr a_yr b_x b_y b_xr b_yr : ℤ) :
    aabbOverlap a_x a_y a_xr a_yr b_x b_y b_xr b_yr =
      aabbOverlap b_x b_y b_xr b_yr a_x a_y a_xr a_yr := by
  unfold aabbOverlap
  split_ifs <;> rfl

theorem HaveObjectsCollided_comm (a b : Model) :
    HaveObjectsCollided a b = HaveObjectsCollided b a := by
  unfold HaveObjectsCollided
  rw [Bool.and_comm]
  rcases a.x with _ | ax <;> rcases a.y with _ | ay <;>
    rcases b.x with _ | bx <;> rcases b.y with _ | bY <;>
    simp [aabbOverlap_comm]

/-! ### Claim theorems -/

/-- C3: for every list of entities, `RemoveDeadObjects` removes exactly the
entities with `health ≤ 0` — the survivors are the entities with positive
health in their original relative order, and the returned removed
collection is exactly the non-positive-health subsequence (covering
adjacent dead entries and dead entries at either boundary, since the
characterisation holds for every list). -/
theorem claim_C3_pruneDead (objects : List Model) :
    RemoveDeadObjects objects =
      (objects.filter (fun o => decide (0 < o.health)),
       objects.filter (fun o => decide (o.health ≤ 0))) := by
  have h := removeDeadFrom_spec objects.length objects 0 [] (by omega)
  simpa [RemoveDeadObjects] using h

/-- C10: `HaveObjectsCollided` is symmetric — for every pair of entities
`a`, `b` it returns the same outcome on `(a, b)` as on `(b, a)`. -/
theorem claim_C10_collision_symmetric (a b : Model) :
    HaveObjectsCollided a b = HaveObjectsCollided b a :=
  HaveObjectsCollided_comm a b

/-- C9: precondition violations raise.  (1) `move` on an entity whose
position was never set (either coordinate still `None`) raises the
"initial position not set" error, for every such entity and any screen
size.  (2) `set_direction(dx, dy)` raises the invalid-argument error
exactly when the magnitude of `(dx, dy)` is below the epsilon `0.001`,
i.e. (squaring both nonnegative sides) when `dx² + dy² < 10⁻⁶`. -/
theorem claim_C9_preconditions :
    (∀ (m : Model) (h w : ℤ), m.x = none ∨ m.y = none →
      m.move h w = Except.error GameError.positionNotSet) ∧
    (∀ (m : Model) (dx dy : ℚ),
      m.set_direction dx dy = Except.error GameError.badDirection ↔
        dx * dx + dy * dy < 1/1000000) := by
  constructor
  · intro m h w hnone
    unfold Model.move
    rcases hx : m.x with _ | mx <;> rcases hy : m.y with _ | my <;>
      simp_all
  · intro m dx dy
    unfold Model.set_direction
    by_cases hlt : dx * dx + dy * dy < 1/1000000 <;> simp [hlt]

/-- Witness for C9 at concrete inputs: the freshly constructed `Model`
(whose position is unset) cannot move on a 10×10 screen, and
`set_direction(0, 0)` raises. -/
theorem claim_C9_preconditions_witness :
    Model.init.move 10 10 = Except.error GameError.positionNotSet ∧
      Model.init.set_direction 0 0 = Except.error GameError.badDirection := by
  constructor
  · exact claim_C9_preconditions.1 Model.init 10 10 (Or.inl rfl)
  · exact (claim_C9_preconditions.2 Model.init 0 0).mpr (by norm_num)

/-- A moving entity used to exhibit the double-stop behaviour. -/
def stopTwiceModel : Model := { Model.init with x_speed := 1 }

/-- C4 counterexample: for the entity moving with `x_speed = 1`, two
consecutive `stop()` calls followed by `resume()` leave `x_speed = 0`, not
the pre-stop velocity `1` — the second `stop()` overwrote the saved
velocity with the already-zeroed one, so C4's "one or more consecutive
calls to stop()" fails at two calls. -/
theorem claim_C4_counterexample :
    (Model.resume (Model.stop (Model.stop stopTwiceModel))).map Model.x_speed =
        Except.ok 0 ∧
      stopTwiceModel.x_speed = 1 := by
  constructor
  · simp [stopTwiceModel, Model.stop, Model.resume, Except.map]
  · rfl

/-- C4 corrected: `stop()` is not idempotent with respect to the
stopped-velocity cache.  A single `stop()` followed by `resume()` does
restore the pre-stop velocity components, but each further consecutive
`stop()` overwrites the saved components with the already-zeroed ones, so
`resume()` after two or more consecutive stops yields zero velocity. -/
theorem claim_C4_stop_resume (m : Model) (n : ℕ) :
    (∃ m₁ : Model, (m.stop).resume = Except.ok m₁ ∧
        m₁.x_speed = m.x_speed ∧ m₁.y_speed = m.y_speed) ∧
    (∃ m₂ : Model, (Model.stop^[n + 2] m).resume = Except.ok m₂ ∧
        m₂.x_speed = 0 ∧ m₂.y_speed = 0) := by
  constructor
  · refine ⟨{ m.stop with x_speed := m.x_speed, y_speed := m.y_speed }, ?_, rfl, rfl⟩
    simp [Model.stop, Model.resume]
  · have key : ∀ (k : ℕ) (mm : Model), mm.x_speed = 0 → mm.y_speed = 0 →
        mm.x_speed_save = some 0 → mm.y_speed_save = some 0 →
        (Model.stop^[k] mm).x_speed = 0 ∧ (Model.stop^[k] mm).y_speed = 0 ∧
        (Model.stop^[k] mm).x_speed_save = some 0 ∧
        (Model.stop^[k] mm).y_speed_save = some 0 := by
      intro k
      induction k with
      | zero =>
        intro mm h1 h2 h3 h4
        simpa using ⟨h1, h2, h3, h4⟩
      | succ k ih =>
        intro mm h1 h2 h3 h4
        rw [Function.iterate_succ_apply]
        exact ih _ rfl rfl (by simp [Model.stop, h1]) (by simp [Model.stop, h2])
    have hiter : Model.stop^[n + 2] m = Model.stop^[n] (Model.stop (Model.stop m)) := by
      rw [Function.iterate_add_apply]
      rfl
    have base := key n (Model.stop (Model.stop m)) rfl rfl
      (by simp [Model.stop]) (by simp [Model.stop])
    obtain ⟨hx, hy, hxs, hys⟩ := base
    rw [hiter]
    refine ⟨{ Model.stop^[n] (Model.stop (Model.stop m)) with
      x_speed := 0, y_speed := 0 }, ?_, rfl, rfl⟩
    simp [Model.resume, hx, hy, hxs, hys]

/-- `x_in_bounds` reads only the `x_radius` field of the entity. -/
theorem x_in_bounds_congr (m m' : Model) (hr : m'.x_radius = m.x_radius)
    (q : ℚ) (w : ℤ) : (m'.x_in_bounds q w ↔ m.x_in_bounds q w) := by
  unfold Model.x_in_bounds
  rw [hr]

/-- `y_in_bounds` reads only the `y_radius` field of the entity. -/
theorem y_in_bounds_congr (m m' : Model) (hr : m'.y_radius = m.y_radius)
    (q : ℚ) (h : ℤ) : (m'.y_in_bounds q h ↔ m.y_in_bounds q h) := by
  unfold Model.y_in_bounds
  rw [hr]

/-- C2 (amended): full characterisation of `Model.move` for an entity whose
position is set: (A) if the tentative position (current position plus velocity) keeps
the bounding box inside the screen, the entity moves there and `move`
returns `true`; (B) if it leaves bounds and the edge strategy is
`DISAPPEAR`, `move` returns `false` without moving; (C) under the `BOUNCE`
strategy the velocity component of each violated axis is negated and the
committed position is the original position plus the reflected velocity —
`move` returns `true` if that position is back in bounds, and otherwise
raises the "Bad x" / "Bad y" internal-consistency error. -/
theorem move_spec (m : Model) (mx my : ℚ) (w h : ℤ)
    (hx : m.x = some mx) (hy : m.y = some my) :
    (m.x_in_bounds (mx + m.x_speed) w → m.y_in_bounds (my + m.y_speed) h →
      m.move h w = Except.ok (true,
        { m with x := some (mx + m.x_speed), y := some (my + m.y_speed) })) ∧
    (¬ (m.x_in_bounds (mx + m.x_speed) w ∧ m.y_in_bounds (my + m.y_speed) h) →
      m.edge_strategy = EdgeStrategy.disappear →
      m.move h w = Except.ok (false, m)) ∧
    (m.edge_strategy = EdgeStrategy.bounce →
      ∀ rx ry : ℚ,
        rx = (if m.x_in_bounds (mx + m.x_speed) w then m.x_speed else -m.x_speed) →
        ry = (if m.y_in_bounds (my + m.y_speed) h then m.y_speed else -m.y_speed) →
        ((m.x_in_bounds (mx + rx) w → m.y_in_bounds (my + ry) h →
          m.move h w = Except.ok (true,
            { m with x_speed := rx, y_speed := ry,
                     x := some (mx + rx), y := some (my + ry) })) ∧
         (¬ m.x_in_bounds (mx + rx) w →
          m.move h w = Except.error GameError.badBounceX) ∧
         (m.x_in_bounds (mx + rx) w → ¬ m.y_in_bounds (my + ry) h →
          m.move h w = Except.error GameError.badBounceY))) := by
  refine ⟨?_, ?_, ?_⟩
  · intro hxin hyin
    simp only [Model.move, hx, hy, Model.propose_move]
    rw [if_neg (by simp [hxin, hyin])]
    simp only [if_neg (not_not_intro hxin), if_neg (not_not_intro hyin)]
    dsimp only [Model.x_in_bounds, Model.y_in_bounds] at hxin hyin ⊢
    rw [if_neg (not_not_intro hxin), if_neg (not_not_intro hyin)]
  · intro hviol hstrat
    simp only [Model.move, hx, hy, Model.propose_move]
    rw [if_pos ⟨hviol, hstrat⟩]
  · intro hstrat rx ry hrx hry
    have hnd : ¬ (¬ (m.x_in_bounds (mx + m.x_speed) w ∧
        m.y_in_bounds (my + m.y_speed) h) ∧
        m.edge_strategy = EdgeStrategy.disappear) := by
      rw [hstrat]
      rintro ⟨-, hc⟩
      cases hc
    by_cases hxin : m.x_in_bounds (mx + m.x_speed) w
    · rw [if_pos hxin] at hrx
      by_cases hyin : m.y_in_bounds (my + m.y_speed) h
      · rw [if_pos hyin] at hry
        subst hrx hry
        refine ⟨?_, ?_, ?_⟩
        · intro hbx hby
          simp only [Model.move, hx, hy, Model.propose_move]
          rw [if_neg hnd]
          simp only [if_neg (not_not_intro hxin), if_neg (not_not_intro hyin)]
          dsimp only [Model.x_in_bounds, Model.y_in_bounds] at hbx hby ⊢
          rw [if_neg (not_not_intro hbx), if_neg (not_not_intro hby)]
        · intro hbx
          exact absurd hxin hbx
        · intro _ hby
          exact absurd hyin hby
      · rw [if_neg hyin] at hry
        subst hrx hry
        refine ⟨?_, ?_, ?_⟩
        · intro hbx hby
          simp only [Model.move, hx, hy, Model.propose_move]
          rw [if_neg hnd]
          simp only [if_neg (not_not_intro hxin), if_pos hyin]
          dsimp only [Model.x_in_bounds, Model.y_in_bounds] at hbx hby ⊢
          rw [if_neg (not_not_intro hbx), if_neg (not_not_intro hby)]
        · intro hbx
          exact absurd hxin hbx
        · intro hbx hby
          simp only [Model.move, hx, hy, Model.propose_move]
          rw [if_neg hnd]
          simp only [if_neg (not_not_intro hxin), if_pos hyin]
          dsimp only [Model.x_in_bounds, Model.y_in_bounds] at hbx hby ⊢
          rw [if_neg (not_not_intro hbx), if_pos hby]
    · rw [if_neg hxin] at hrx
      by_cases hyin : m.y_in_bounds (my + m.y_speed) h
      · rw [if_pos hyin] at hry
        subst hrx hry
        refine ⟨?_, ?_, ?_⟩
        · intro hbx hby
          simp only [Model.move, hx, hy, Model.propose_move]
          rw [if_neg hnd]
          simp only [if_pos hxin, if_neg (not_not_intro hyin)]
          dsimp only [Model.x_in_bounds, Model.y_in_bounds] at hbx hby ⊢
          rw [if_neg (not_not_intro hbx), if_neg (not_not_intro hby)]
        · intro hbx
          simp only [Model.move, hx, hy, Model.propose_move]
          rw [if_neg hnd]
          simp only [if_pos hxin, if_neg (not_not_intro hyin)]
          dsimp only [Model.x_in_bounds, Model.y_in_bounds] at hbx ⊢
          rw [if_pos hbx]
        · intro hbx hby
          simp only [Model.move, hx, hy, Model.propose_move]
          rw [if_neg hnd]
          simp only [if_pos hxin, if_neg (not_not_intro hyin)]
          dsimp only [Model.x_in_bounds, Model.y_in_bounds] at hbx hby ⊢
          rw [if_neg (not_not_intro hbx), if_pos hby]
      · rw [if_neg hyin] at hry
        subst hrx hry
        refine ⟨?_, ?_, ?_⟩
        · intro hbx hby
          simp only [Model.move, hx, hy, Model.propose_move]
          rw [if_neg hnd]
          simp only [if_pos hxin, if_pos hyin]
          dsimp only [Model.x_in_bounds, Model.y_in_bounds] at hbx hby ⊢
          rw [if_neg (not_not_intro hbx), if_neg (not_not_intro hby)]
        · intro hbx
          simp only [Model.move, hx, hy, Model.propose_move]
          rw [if_neg hnd]
          simp only [if_pos hxin, if_pos hyin]
          dsimp only [Model.x_in_bounds, Model.y_in_bounds] at hbx ⊢
          rw [if_pos hbx]
        · intro hbx hby
          simp only [Model.move, hx, hy, Model.propose_move]
          rw [if_neg hnd]
          simp only [if_pos hxin, if_pos hyin]
          dsimp only [Model.x_in_bounds, Model.y_in_bounds] at hbx hby ⊢
          rw [if_neg (not_not_intro hbx), if_pos hby]

/-- A bouncing entity whose reflected position is still out of bounds. -/
def moveCexModel : Model :=
  { Model.init with x := some 5, y := some 5, x_speed := 100 }

/-- C2 counterexample: a Bounce-strategy entity at (5, 5) with
`x_speed = 100` on a 10×10 screen violates the x bound (tentative
x = 105); after negating the x velocity the recomputed position (−95, 5)
is still out of bounds, so `move` raises the "Bad x"
internal-consistency error rather than returning `true` as the claim's
Bounce clause states. -/
theorem claim_C2_counterexample :
    Model.move moveCexModel 10 10 = Except.error GameError.badBounceX := by
  norm_num [Model.move, moveCexModel, Model.init, Model.propose_move,
    Model.x_in_bounds, Model.y_in_bounds]
  exact fun hc => EdgeStrategy.noConfusion hc

/-- An entity sitting at the right screen edge, moving right. -/
def moveBounceModel : Model :=
  { Model.init with x := some 29, y := some 10, x_speed := 1 }

/-- Witness for C2 (amended) at the spec's boundary example: an entity at
the right edge (x = 29 on a width-30 screen) moving right with the Bounce
strategy flips its x velocity to −1, commits position (28, 10), and stays
in the game. -/
theorem move_spec_witness :
    Model.move moveBounceModel 20 30 = Except.ok (true,
      { moveBounceModel with
          x_speed := -1, y_speed := 0, x := some 28, y := some 10 }) := by
  have hstrat : moveBounceModel.edge_strategy = EdgeStrategy.bounce := rfl
  have hxviol : ¬ moveBounceModel.x_in_bounds (29 + moveBounceModel.x_speed) 30 := by
    norm_num [Model.x_in_bounds, moveBounceModel, Model.init]
  have hyok : moveBounceModel.y_in_bounds (10 + moveBounceModel.y_speed) 20 := by
    norm_num [Model.y_in_bounds, moveBounceModel, Model.init]
  have hbx : moveBounceModel.x_in_bounds (29 + -moveBounceModel.x_speed) 30 := by
    norm_num [Model.x_in_bounds, moveBounceModel, Model.init]
  have h2 := ((move_spec moveBounceModel 29 10 30 20 rfl rfl).2.2 hstrat
      (-moveBounceModel.x_speed) moveBounceModel.y_speed
      (by rw [if_neg hxviol]) (by rw [if_pos hyok])).1 hbx hyok
  rw [h2]
  norm_num [moveBounceModel, Model.init]

/-- Length of a Python string repetition. -/
theorem pyRepeat_length (c : Char) (n : ℤ) : (pyRepeat c n).length = n.toNat := by
  simp [pyRepeat]

/-- What a successful `MakePlayerHealthObject` looks like: its appearance is
the single row `'X' * m`. -/
theorem makePlayerHealthObject_ok (m : ℤ) (obj : MultiCharObj)
    (h : MakePlayerHealthObject m = Except.ok obj) :
    obj.strings = [pyRepeat 'X' m] := by
  unfold MakePlayerHealthObject mkMultiCharObj at h
  split_ifs at h
  rcases hfind : List.find?
      (fun s => decide ((s.length : ℤ) ≠ 2 * Int.tdiv m 2 + 1))
      [pyRepeat 'X' m] with _ | s
  · rw [hfind] at h
    simp only [Except.ok.injEq] at h
    rw [← h]
  · rw [hfind] at h
    cases h

/-- C7 counterexample: the indicator built for max health 3 updated with
player health 4 displays a row of width 4, not the claimed fixed width 3
(the code produces `'X' * 4 + ' ' * (-1) = "XXXX"`). -/
theorem claim_C7_counterexample :
    (MakePlayerHealthObject 3).bind (fun obj =>
        (UpdatePlayerHealth { Model.init with health := 4 } obj).map
          (fun o => o.strings.map String.length)) = Except.ok [4] := by
  decide

/-- C7 amended: for an indicator built for maximum health `m` and a player
health `h` *in the range `0 ≤ h ≤ m`*, `UpdatePlayerHealth` sets the
displayed text to exactly `h` fill characters `'X'` followed by `m − h`
blanks, for a total fixed width of `m`.  (Outside that range the width is
not `m`: see the counterexample.) -/
theorem claim_C7_health_text (m h : ℤ) (player : Model) (obj : MultiCharObj)
    (hmk : MakePlayerHealthObject m = Except.ok obj)
    (hh : player.health = h) (h0 : 0 ≤ h) (hm : h ≤ m) :
    UpdatePlayerHealth player obj = Except.ok { obj with
        strings := [pyRepeat 'X' h ++ pyRepeat ' ' (m - h)] } ∧
      (pyRepeat 'X' h ++ pyRepeat ' ' (m - h)).length = m.toNat := by
  have hs := makePlayerHealthObject_ok m obj hmk
  constructor
  · unfold UpdatePlayerHealth
    rw [hs]
    dsimp only
    have hlen : ((pyRepeat 'X' m).length : ℤ) = m := by
      rw [pyRepeat_length]
      exact Int.toNat_of_nonneg (by omega)
    rw [hlen, hh]
  · rw [String.length_append, pyRepeat_length, pyRepeat_length]
    omega

/-- The indicator produced by `MakePlayerHealthObject 3`. -/
def healthObj3 : MultiCharObj :=
  { toModel := Model.init.set_radius 1 0, strings := [pyRepeat 'X' 3] }

/-- Witness for C7 at `m = 3`, `h = 2`: the indicator text becomes
`"XX "`, of width 3. -/
theorem claim_C7_health_text_witness :
    UpdatePlayerHealth { Model.init with health := 2 } healthObj3 =
        Except.ok { healthObj3 with
          strings := [pyRepeat 'X' 2 ++ pyRepeat ' ' (3 - 2)] } ∧
      (pyRepeat 'X' 2 ++ pyRepeat ' ' (3 - 2)).length = (3 : ℤ).toNat :=
  claim_C7_health_text 3 2 { Model.init with health := 2 } healthObj3
    (by decide) rfl (by decide) (by decide)

/-- C8 counterexample: `player_health_max = -1` is an odd integer, yet
installing the health indicator fails — `int(-1/2) = 0` and `'X' * -1` is
the empty row, whose width 0 mismatches the expected `2*0+1 = 1`, so the
`MultiCharObj` dimension validation raises.  The claim's "construction
succeeds when these conditions hold" is therefore false for negative odd
integers. -/
theorem claim_C8_counterexample :
    MakeAndInstallPlayerHealthObject none [] (PyVal.int (-1)) =
      Except.error (GameError.badRowLen 0 1) := by
  decide

/-- C8 amended: (i) constructing a `MultiCharObj` succeeds exactly when the
appearance row count is `2*y_radius+1` and every row has width
`2*x_radius+1`; (ii) a row-count mismatch raises the error naming actual
vs. expected row count; (iii) a width mismatch raises the error naming the
first offending row's actual width vs. the expected one; (iv) a non-`int`
max health raises the type error; (v) an even max health raises the
odd-integer error; (vi) construction of the health indicator succeeds for
every *positive* odd integer max health (for negative odd integers the
width validation of (iii) fires instead — see the counterexample). -/
theorem claim_C8_validation :
    (∀ (xr yr : ℤ) (strs : List String),
      (∃ o, mkMultiCharObj xr yr strs = Except.ok o) ↔
        ((strs.length : ℤ) = 2*yr + 1 ∧ ∀ s ∈ strs, (s.length : ℤ) = 2*xr + 1)) ∧
    (∀ (xr yr : ℤ) (strs : List String),
      (strs.length : ℤ) ≠ 2*yr + 1 →
        mkMultiCharObj xr yr strs =
          Except.error (GameError.badRows (strs.length) (2*yr + 1))) ∧
    (∀ (xr yr : ℤ) (strs : List String) (s : String),
      (strs.length : ℤ) = 2*yr + 1 →
      strs.find? (fun s => decide ((s.length : ℤ) ≠ 2*xr + 1)) = some s →
        mkMultiCharObj xr yr strs =
          Except.error (GameError.badRowLen (s.length) (2*xr + 1))) ∧
    (∀ (objects : List MultiCharObj) (q : ℚ),
      MakeAndInstallPlayerHealthObject none objects (PyVal.float q) =
        Except.error GameError.maxHealthNotInt) ∧
    (∀ (objects : List MultiCharObj) (n : ℤ), n % 2 = 0 →
      MakeAndInstallPlayerHealthObject none objects (PyVal.int n) =
        Except.error (GameError.maxHealthEven n)) ∧
    (∀ (objects : List MultiCharObj) (n : ℤ), n % 2 = 1 → 0 < n →
      ∃ ph rest, MakeAndInstallPlayerHealthObject none objects (PyVal.int n) =
        Except.ok (ph, objects ++ rest)) := by
  refine ⟨?_, ?_, ?_, ?_, ?_, ?_⟩
  · intro xr yr strs
    unfold mkMultiCharObj
    by_cases hrows : (strs.length : ℤ) = 2*yr + 1
    · rw [if_neg (not_not_intro hrows)]
      rcases hfind : strs.find? (fun s => decide ((s.length : ℤ) ≠ 2*xr + 1))
          with _ | s <;> rw [hfind]
      · constructor
        · intro _
          simp only [List.find?_eq_none] at hfind
          refine ⟨hrows, fun s hs => ?_⟩
          have := hfind s hs
          simpa using this
        · intro _
          exact ⟨_, rfl⟩
      · constructor
        · intro hex
          obtain ⟨o, ho⟩ := hex
          cases ho
        · intro hall
          have hmem := List.mem_of_find?_eq_some hfind
          have hbad := List.find?_some hfind
          simp only [decide_eq_true_eq] at hbad
          exact absurd (hall.2 s hmem) hbad
    · rw [if_pos hrows]
      constructor
      · intro hex
        obtain ⟨o, ho⟩ := hex
        cases ho
      · intro hall
        exact absurd hall.1 hrows
  · intro xr yr strs hrows
    unfold mkMultiCharObj
    rw [if_pos hrows]
  · intro xr yr strs s hrows hfind
    unfold mkMultiCharObj
    rw [if_neg (not_not_intro hrows), hfind]
  · intro objects q
    rfl
  · intro objects n hev
    simp only [MakeAndInstallPlayerHealthObject]
    rw [if_pos hev]
  · intro objects n hodd hpos
    have hlabel : mkMultiCharObj 4 0 [("HEALTH = ")] =
        Except.ok
          { toModel := Model.init.set_radius 4 0, strings := [("HEALTH = ")] } := by
      decide
    have hph : MakePlayerHealthObject n =
        Except.ok
          { toModel := Model.init.set_radius (Int.tdiv n 2) 0,
            strings := [pyRepeat 'X' n] } := by
      unfold MakePlayerHealthObject mkMultiCharObj
      rw [if_neg (by simp)]
      have hfind : List.find?
          (fun s => decide ((s.length : ℤ) ≠ 2 * Int.tdiv n 2 + 1))
          [pyRepeat 'X' n] = none := by
        rw [List.find?_singleton, if_neg]
        simp only [decide_eq_true_eq, pyRepeat_length, not_not,
          decide_eq_true_eq, not_not]
        rw [Int.toNat_of_nonneg (by omega), Int.tdiv_eq_ediv (by omega) (by omega)]
        omega
      rw [hfind]
    simp only [MakeAndInstallPlayerHealthObject]
    rw [if_neg (by omega)]
    simp only [Except.bind, Except.instMonad, hlabel, hph]
    exact ⟨_, _, rfl⟩

/-- Witness for C8 at the repository's own test inputs: a 1-row appearance
declared with `y_radius = 5` raises the row-count error (1 vs. 11); rows
`FOO/FOO/FO` with `x_radius = 1` raise the width error (2 vs. 3); max
health 4 raises the odd-integer error; max health 5 installs fine. -/
theorem claim_C8_validation_witness :
    mkMultiCharObj 0 5 [("F")] = Except.error (GameError.badRows 1 11) ∧
    mkMultiCharObj 1 1 [("FOO"), ("FOO"), ("FO")] =
      Except.error (GameError.badRowLen 2 3) ∧
    MakeAndInstallPlayerHealthObject none [] (PyVal.int 4) =
      Except.error (GameError.maxHealthEven 4) ∧
    (∃ ph rest, MakeAndInstallPlayerHealthObject none [] (PyVal.int 5) =
      Except.ok (ph, [] ++ rest)) := by
  refine ⟨?_, ?_, ?_, ?_⟩
  · exact claim_C8_validation.2.1 0 5 [("F")] (by decide)
  · exact claim_C8_validation.2.2.1 1 1 [("FOO"), ("FOO"), ("FO")] ("FO")
      (by decide) (by decide)
  · exact claim_C8_validation.2.2.2.2.1 [] 4 (by decide)
  · exact claim_C8_validation.2.2.2.2.2 [] 5 (by decide) (by decide)

/-- The early-return chain of `HaveObjectsCollided` computes exactly the
standard AABB intersection test, with touching edges counting as
overlap. -/
theorem aabbOverlap_eq_decide (a_x a_y a_xr a_yr b_x b_y b_xr b_yr : ℤ) :
    aabbOverlap a_x a_y a_xr a_yr b_x b_y b_xr b_yr =
      decide (b_x - b_xr ≤ a_x + a_xr ∧ a_x - a_xr ≤ b_x + b_xr ∧
        b_y - b_yr ≤ a_y + a_yr ∧ a_y - a_yr ≤ b_y + b_yr) := by
  unfold aabbOverlap
  split_ifs <;> symm <;>
    first
      | exact decide_eq_false (by omega)
      | exact decide_eq_true (by omega)

/-- C5: `HaveObjectsCollided` returns `False` whenever either entity is
non-collidable (its positions are not even read); otherwise, with both
positions set, it rounds each position to the nearest integer cell and
returns `True` exactly when the two rectangles given by the half-extents
are not fully separated on either axis — touching edges count as
overlap. -/
theorem claim_C5_pairwiseOverlap :
    (∀ a b : Model, ¬ (a.can_collide = true ∧ b.can_collide = true) →
      HaveObjectsCollided a b = Except.ok false) ∧
    (∀ (a b : Model) (ax ay bx bY : ℚ),
      a.x = some ax → a.y = some ay → b.x = some bx → b.y = some bY →
      HaveObjectsCollided a b = Except.ok (decide (
        a.can_collide = true ∧ b.can_collide = true ∧
        (pythonRound bx - b.x_radius ≤ pythonRound ax + a.x_radius ∧
         pythonRound ax - a.x_radius ≤ pythonRound bx + b.x_radius ∧
         pythonRound bY - b.y_radius ≤ pythonRound ay + a.y_radius ∧
         pythonRound ay - a.y_radius ≤ pythonRound bY + b.y_radius)))) := by
  constructor
  · intro a b hnc
    unfold HaveObjectsCollided
    rw [if_pos]
    simp only [Bool.not_eq_true', Bool.and_eq_false_iff]
    by_cases ha : a.can_collide = true
    · right
      by_cases hb : b.can_collide = true
      · exact absurd ⟨ha, hb⟩ hnc
      · simpa using hb
    · left
      simpa using ha
  · intro a b ax ay bx bY hax hay hbx hby
    unfold HaveObjectsCollided
    by_cases hcc : (a.can_collide && b.can_collide) = true
    · rw [if_neg (by simp [hcc]), hax, hay, hbx, hby]
      dsimp only
      rw [aabbOverlap_eq_decide]
      refine congrArg Except.ok (decide_eq_decide.mpr ?_)
      rw [Bool.and_eq_true] at hcc
      constructor
      · intro hsep
        exact ⟨hcc.1, hcc.2, hsep⟩
      · intro hfull
        exact hfull.2.2
    · rw [if_pos (show (!(a.can_collide && b.can_collide)) = true by
        rw [Bool.not_eq_true']
        exact Bool.eq_false_iff.mpr hcc)]
      refine congrArg Except.ok ?_
      symm
      refine decide_eq_false ?_
      rw [Bool.and_eq_true] at hcc
      intro hfull
      exact hcc ⟨hfull.1, hfull.2.1⟩

/-- A zero-radius collidable entity at (1.0, 1.0). -/
def ballA : Model := { Model.init with x := some 1, y := some 1 }

/-- A zero-radius collidable entity at (1.2, 1.3). -/
def ballB : Model := { Model.init with x := some (6/5), y := some (13/10) }

/-- A zero-radius collidable entity at (5.0, 5.0). -/
def ballC : Model := { Model.init with x := some 5, y := some 5 }

/-- Witness for C5 at the spec's examples: zero-radius entities at
(1.0, 1.0) and (1.2, 1.3) collide (both round to cell (1, 1)); zero-radius
entities at (1.0, 1.0) and (5.0, 5.0) do not. -/
theorem claim_C5_pairwiseOverlap_witness :
    HaveObjectsCollided ballA ballB = Except.ok true ∧
    HaveObjectsCollided ballA ballC = Except.ok false := by
  have r1 : pythonRound 1 = 1 := by norm_num [pythonRound]
  have r65 : pythonRound (6/5) = 1 := by norm_num [pythonRound]
  have r13 : pythonRound (13/10) = 1 := by norm_num [pythonRound]
  have r5 : pythonRound 5 = 5 := by norm_num [pythonRound]
  constructor
  · rw [claim_C5_pairwiseOverlap.2 ballA ballB 1 1 (6/5) (13/10) rfl rfl rfl rfl,
      r1, r65, r13]
    decide
  · rw [claim_C5_pairwiseOverlap.2 ballA ballC 1 1 5 5 rfl rfl rfl rfl, r1, r5]
    decide

/-- C6: reload gating of `shoot_laser`.  (1) An invocation made before the
reload cooldown `LASER_RELOAD_TIME_SEC` has elapsed since the last
successful shot returns `None` with no error and no state change.  (2)
Once the cooldown has elapsed, the call returns a projectile and records
the shot time.  (3) In particular the first invocation of a freshly
constructed player (`laser_shot_time = 0`) returns a projectile at any
wall-clock time ≥ 0.5 s. -/
theorem claim_C6_shoot_laser :
    (∀ (p : TankPlayer) (t : ℚ), t < p.laser_shot_time + LASER_RELOAD_TIME_SEC →
      p.shoot_laser t = Except.ok (none, p)) ∧
    (∀ (p : TankPlayer) (t px py : ℚ), p.x = some px → p.y = some py →
      p.laser_shot_time + LASER_RELOAD_TIME_SEC ≤ t →
      ∃ laser, p.shoot_laser t =
        Except.ok (some laser, { p with laser_shot_time := t })) ∧
    (∀ (p : TankPlayer) (t px py : ℚ), p.x = some px → p.y = some py →
      p.laser_shot_time = 0 → 1/2 ≤ t →
      ∃ laser, p.shoot_laser t =
        Except.ok (some laser, { p with laser_shot_time := t })) := by
  have hball : mkBall '/' = Except.ok
      { toModel := Model.init.set_radius 0 0, strings := [String.mk ['/']] } := by
    decide
  have hdir : ∀ mdl : Model, Model.set_direction mdl 1 (-1) =
      Except.ok { mdl with
        x_speed := mdl.speed * 1 / Rat.sqrt (1*1 + (-1)*(-1)),
        y_speed := mdl.speed * (-1) / Rat.sqrt (1*1 + (-1)*(-1)) } := by
    intro mdl
    unfold Model.set_direction
    rw [if_neg (by norm_num)]
  have hshoot : ∀ (p : TankPlayer) (t px py : ℚ), p.x = some px → p.y = some py →
      p.laser_shot_time + LASER_RELOAD_TIME_SEC ≤ t →
      ∃ laser, p.shoot_laser t =
        Except.ok (some laser, { p with laser_shot_time := t }) := by
    intro p t px py hx hy hcool
    unfold TankPlayer.shoot_laser
    rw [if_neg (not_lt.mpr hcool), hx, hy]
    dsimp only
    simp only [hball, hdir, Except.bind, Except.instMonad]
    exact ⟨_, rfl⟩
  refine ⟨?_, hshoot, ?_⟩
  · intro p t hcool
    unfold TankPlayer.shoot_laser
    rw [if_pos hcool]
  · intro p t px py hx hy hzero hhalf
    refine hshoot p t px py hx hy ?_
    rw [hzero, LASER_RELOAD_TIME_SEC]
    linarith

/-- A freshly built one-character player at (10, 10). -/
def tank0 : TankPlayer :=
  { toModel := { Model.init with x := some 10, y := some 10 },
    strings := [String.mk ['T']], laser_shot_time := 0 }

/-- Witness for C6: the fresh player's first shot at `t = 1` produces a
projectile; an immediate retry at `t = 1.25` (before the 0.5 s cooldown)
returns `None` with the state unchanged; a retry at `t = 1.5` (cooldown
elapsed) produces a projectile again. -/
theorem claim_C6_shoot_laser_witness :
    (∃ laser, tank0.shoot_laser 1 =
        Except.ok (some laser, { tank0 with laser_shot_time := 1 })) ∧
    TankPlayer.shoot_laser { tank0 with laser_shot_time := 1 } (5/4) =
      Except.ok (none, { tank0 with laser_shot_time := 1 }) ∧
    (∃ laser, TankPlayer.shoot_laser { tank0 with laser_shot_time := 1 } (3/2) =
        Except.ok (some laser, { tank0 with laser_shot_time := 3/2 })) := by
  refine ⟨?_, ?_, ?_⟩
  · exact claim_C6_shoot_laser.2.2 tank0 1 10 10 rfl rfl rfl (by norm_num)
  · exact claim_C6_shoot_laser.1 { tank0 with laser_shot_time := 1 } (5/4)
      (by rw [LASER_RELOAD_TIME_SEC]; norm_num)
  · obtain ⟨l, hl⟩ := claim_C6_shoot_laser.2.1
      { tank0 with laser_shot_time := 1 } (3/2) 10 10 rfl rfl
      (by rw [LASER_RELOAD_TIME_SEC]; norm_num)
    exact ⟨l, hl⟩

/-- Whether the loop body of `RunCollisionDetection` damages the pair at
indices `(i, j)` of the collection `l`: the two objects overlap and carry
different labels.  This predicate reads only fields that the pass never
mutates, so it can be evaluated on the original collection. -/
def collidePair (l : List Model) (i j : ℕ) : Prop :=
  HaveObjectsCollided (l.getD i Model.init) (l.getD j Model.init) =
    Except.ok true ∧
  ¬ ((l.getD i Model.init).label = (l.getD j Model.init).label)

instance (l : List Model) (i j : ℕ) : Decidable (collidePair l i j) := by
  unfold collidePair
  infer_instance

/-- The total damage entity `k` takes in one `RunCollisionDetection` pass:
the sum, over every other index `j` whose object overlaps `k`'s with a
different label, of that object's damage. -/
def totalDamage (l : List Model) (k : ℕ) : ℤ :=
  ∑ j ∈ Finset.range l.length,
    if j ≠ k ∧ collidePair l k j then (l.getD j Model.init).damage else 0

/-- The damage entity `k` accumulates over an explicit list of visited
index pairs. -/
def pairContrib (l : List Model) (k : ℕ) (P : List (ℕ × ℕ)) : ℤ :=
  (P.map fun p =>
    if collidePair l p.1 p.2 then
      (if p.1 = k then (l.getD p.2 Model.init).damage else 0) +
      (if p.2 = k then (l.getD p.1 Model.init).damage else 0)
    else 0).sum

/-- `HaveObjectsCollided` never reads the `health` field. -/
theorem collide_health_congr (a b : Model) (ha hb : ℤ) :
    HaveObjectsCollided { a with health := ha } { b with health := hb } =
      HaveObjectsCollided a b := rfl

theorem getD_set_eq (l : List Model) (i : ℕ) (a : Model) (h : i < l.length) :
    (l.set i a).getD i Model.init = a := by
  rw [List.getD_eq_getElem?_getD, List.getElem?_set_self h]
  rfl

theorem getD_set_ne (l : List Model) (i j : ℕ) (a : Model) (h : i ≠ j) :
    (l.set i a).getD j Model.init = l.getD j Model.init := by
  rw [List.getD_eq_getElem?_getD, List.getElem?_set_ne h,
    ← List.getD_eq_getElem?_getD]

/-- Membership in the pair enumeration of the nested loops. -/
theorem mem_pairsList {n : ℕ} {p : ℕ × ℕ} :
    p ∈ pairsList n ↔ p.1 < p.2 ∧ p.2 < n := by
  rcases p with ⟨i, j⟩
  simp only [pairsList, List.mem_flatMap, List.mem_map, List.mem_filter,
    List.mem_range, decide_eq_true_eq, Prod.mk.injEq]
  constructor
  · rintro ⟨a, ha, b, ⟨hb, hab⟩, rfl, rfl⟩
    exact ⟨hab, hb⟩
  · rintro ⟨hij, hj⟩
    exact ⟨i, lt_trans hij hj, j, ⟨hj, hij⟩, rfl, rfl⟩

/-- One inner-loop body execution, specified against the original
collection `l`: provided the accumulator `m` agrees with `l` everywhere
except possibly in the `health` fields, a successful step subtracts the
partner's (original) damage from each member of a qualifying pair and
changes nothing else. -/
theorem collisionStep_spec (l m : List Model) (i j : ℕ)
    (hlen : m.length = l.length)
    (hshape : ∀ k, k < l.length → m.getD k Model.init =
      { l.getD k Model.init with health := (m.getD k Model.init).health })
    (hi : i < l.length) (hj : j < l.length) (hij : i ≠ j) (m₁ : List Model)
    (hstep : collisionStep m (i, j) = Except.ok m₁) :
    m₁.length = l.length ∧
    (∀ k, k < l.length → m₁.getD k Model.init =
      { l.getD k Model.init with health := (m.getD k Model.init).health -
        (if collidePair l i j then
          (if i = k then (l.getD j Model.init).damage else 0) +
          (if j = k then (l.getD i Model.init).damage else 0) else 0) }) := by
  have hcongr : HaveObjectsCollided (m.getD i Model.init) (m.getD j Model.init) =
      HaveObjectsCollided (l.getD i Model.init) (l.getD j Model.init) := by
    rw [hshape i hi, hshape j hj]
    exact collide_health_congr _ _ _ _
  have hlabi : (m.getD i Model.init).label = (l.getD i Model.init).label := by
    rw [hshape i hi]
  have hlabj : (m.getD j Model.init).label = (l.getD j Model.init).label := by
    rw [hshape j hj]
  unfold collisionStep at hstep
  dsimp only at hstep
  rcases hH : HaveObjectsCollided (m.getD i Model.init) (m.getD j Model.init)
      with e | c
  · rw [hH] at hstep
    cases hstep
  · rw [hH] at hstep
    simp only [Except.bind, Except.instMonad] at hstep
    have hHl : HaveObjectsCollided (l.getD i Model.init) (l.getD j Model.init) =
        Except.ok c := by rw [← hcongr, hH]
    by_cases hqual : collidePair l i j
    · have hc : c = true := by
        have := hqual.1
        rw [hHl] at this
        exact (Except.ok.injEq _ _).mp this
      have hlab : ¬ ((m.getD i Model.init).label = (m.getD j Model.init).label) := by
        rw [hlabi, hlabj]
        exact hqual.2
      rw [if_pos ⟨hc, hlab⟩] at hstep
      have hm₁ : m₁ = (m.set i { m.getD i Model.init with
          health := (m.getD i Model.init).health - (m.getD j Model.init).damage }).set
          j { m.getD j Model.init with
          health := (m.getD j Model.init).health - (m.getD i Model.init).damage } := by
        exact ((Except.ok.injEq _ _).mp hstep).symm
      have hdmgj : (m.getD j Model.init).damage = (l.getD j Model.init).damage := by
        rw [hshape j hj]
      have hdmgi : (m.getD i Model.init).damage = (l.getD i Model.init).damage := by
        rw [hshape i hi]
      subst hm₁
      constructor
      · simp [List.length_set, hlen]
      · intro k hk
        by_cases hki : k = i
        · subst hki
          rw [getD_set_ne _ _ _ _ (Ne.symm hij), getD_set_eq _ _ _ (by omega),
            if_pos hqual, if_pos rfl, if_neg (Ne.symm hij), add_zero, hdmgj,
            hshape k hk]
        · by_cases hkj : k = j
          · subst hkj
            rw [getD_set_eq _ _ _ (by rw [List.length_set]; omega),
              if_pos hqual, if_neg (fun hik => hki hik.symm), if_pos rfl,
              zero_add, hdmgi, hshape k hk]
          · rw [getD_set_ne _ _ _ _ (fun h => hkj h.symm),
              getD_set_ne _ _ _ _ (fun h => hki h.symm), if_pos hqual,
              if_neg (fun h => hki h.symm), if_neg (fun h => hkj h.symm),
              add_zero, sub_zero, hshape k hk]
    · have hcond : ¬ (c = true ∧
          ¬ ((m.getD i Model.init).label = (m.getD j Model.init).label)) := by
        rintro ⟨hc, hlab⟩
        subst hc
        exact hqual ⟨hHl, by rw [← hlabi, ← hlabj]; exact hlab⟩
      rw [if_neg hcond] at hstep
      have hm₁ : m₁ = m := ((Except.ok.injEq _ _).mp hstep).symm
      subst hm₁
      refine ⟨hlen, fun k hk => ?_⟩
      rw [if_neg hqual, sub_zero]
      exact hshape k hk

/-- Folding the inner-loop body over any list of in-range, non-diagonal
index pairs subtracts, for each entity, the accumulated pair damage. -/
theorem foldl_collision_spec (l : List Model) :
    ∀ (P : List (ℕ × ℕ)) (m m' : List Model),
    (∀ p ∈ P, p.1 < l.length ∧ p.2 < l.length ∧ p.1 ≠ p.2) →
    m.length = l.length →
    (∀ k, k < l.length → m.getD k Model.init =
      { l.getD k Model.init with health := (m.getD k Model.init).health }) →
    P.foldlM collisionStep m = Except.ok m' →
    m'.length = l.length ∧
    (∀ k, k < l.length → m'.getD k Model.init =
      { l.getD k Model.init with
          health := (m.getD k Model.init).health - pairContrib l k P }) := by
  intro P
  induction P with
  | nil =>
    intro m m' _ hlen hshape hfold
    have hm : m = m' := by
      simpa [List.foldlM, pure, Except.pure] using hfold
    subst hm
    refine ⟨hlen, fun k hk => ?_⟩
    rw [show pairContrib l k [] = 0 from rfl, sub_zero]
    exact hshape k hk
  | cons p P ih =>
    intro m m' hmem hlen hshape hfold
    rcases p with ⟨i, j⟩
    obtain ⟨hi, hj, hij⟩ := hmem (i, j) (List.mem_cons_self _ _)
    rw [List.foldlM_cons] at hfold
    rcases hstep : collisionStep m (i, j) with e | m₁
    · rw [hstep] at hfold
      simp only [Except.bind, Except.instMonad] at hfold
      cases hfold
    · rw [hstep] at hfold
      simp only [Except.bind, Except.instMonad] at hfold
      obtain ⟨hlen₁, hshape₁⟩ :=
        collisionStep_spec l m i j hlen hshape hi hj hij m₁ hstep
      have hshape₁' : ∀ k, k < l.length → m₁.getD k Model.init =
          { l.getD k Model.init with health := (m₁.getD k Model.init).health } := by
        intro k hk
        rw [hshape₁ k hk]
      obtain ⟨hlen', hval⟩ := ih m₁ m'
        (fun q hq => hmem q (List.mem_cons_of_mem _ hq)) hlen₁ hshape₁' hfold
      refine ⟨hlen', fun k hk => ?_⟩
      rw [hval k hk]
      have hhealth : (m₁.getD k Model.init).health =
          (m.getD k Model.init).health -
          (if collidePair l i j then
            (if i = k then (l.getD j Model.init).damage else 0) +
            (if j = k then (l.getD i Model.init).damage else 0) else 0) := by
        rw [hshape₁ k hk]
      rw [hhealth]
      have hcontrib : pairContrib l k ((i, j) :: P) =
          (if collidePair l i j then
            (if i = k then (l.getD j Model.init).damage else 0) +
            (if j = k then (l.getD i Model.init).damage else 0) else 0) +
          pairContrib l k P := by
        simp [pairContrib]
      rw [hcontrib, sub_sub]

/-- `collidePair` is symmetric in its two indices. -/
theorem collidePair_comm (l : List Model) (i j : ℕ) :
    collidePair l i j ↔ collidePair l j i := by
  unfold collidePair
  rw [HaveObjectsCollided_comm]
  constructor <;> rintro ⟨h1, h2⟩ <;> exact ⟨h1, fun he => h2 he.symm⟩

/-- The pair enumeration of the nested loops has no duplicates. -/
theorem pairsList_nodup (n : ℕ) : (pairsList n).Nodup := by
  unfold pairsList
  rw [List.nodup_flatMap]
  constructor
  · intro i _
    exact ((List.nodup_range n).filter _).map
      (fun a b hab => (Prod.mk.injEq _ _ _ _).mp hab |>.2)
  · have hp : (List.range n).Pairwise (fun a b => a ≠ b) :=
      (List.pairwise_lt_range n).imp Nat.ne_of_lt
    refine hp.imp ?_
    intro a b hab p hpa hpb
    rcases List.mem_map.mp hpa with ⟨ja, _, rfl⟩
    rcases List.mem_map.mp hpb with ⟨jb, _, hEq⟩
    exact hab ((Prod.mk.injEq _ _ _ _).mp hEq).1.symm

/-- Each unordered pair of distinct in-range indices is visited exactly
once by the nested loops of `RunCollisionDetection` (as the ordered pair
`(i, j)` with `i < j`), and no other pair is visited: the visit list has
no duplicates and contains exactly those pairs. -/
theorem pairsList_once (n i j : ℕ) :
    (pairsList n).Nodup ∧ ((i, j) ∈ pairsList n ↔ i < j ∧ j < n) :=
  ⟨pairsList_nodup n, mem_pairsList⟩

theorem sum_map_range (f : ℕ → ℤ) (n : ℕ) :
    ((List.range n).map f).sum = ∑ j ∈ Finset.range n, f j := by
  induction n with
  | zero => simp
  | succ n ih =>
    rw [List.range_succ, Finset.sum_range_succ, List.map_append,
      List.sum_append, ih]
    simp

theorem sum_map_filter (p : ℕ → Bool) (f : ℕ → ℤ) (l : List ℕ) :
    ((l.filter p).map f).sum =
      (l.map fun j => if p j = true then f j else 0).sum := by
  induction l with
  | nil => simp
  | cons a l ih =>
    rw [List.filter_cons]
    by_cases h : p a = true
    · rw [if_pos h, List.map_cons, List.sum_cons, List.map_cons, List.sum_cons,
        ih, if_pos h]
    · rw [if_neg h, List.map_cons, List.sum_cons, ih, if_neg h, zero_add]

/-- Pointwise: the contribution of the visited pair `(i, j)` (with `i < j`)
to entity `k` splits into "k collides with a later partner j" and "k
collides with an earlier partner i". -/
theorem pair_term_split (l : List Model) (k i j : ℕ) :
    (if i < j then
      (if collidePair l i j then
        (if i = k then (l.getD j Model.init).damage else 0) +
        (if j = k then (l.getD i Model.init).damage else 0)
      else 0)
    else 0) =
    (if i = k ∧ (k < j ∧ collidePair l k j) then
      (l.getD j Model.init).damage else 0) +
    (if j = k ∧ (i < k ∧ collidePair l k i) then
      (l.getD i Model.init).damage else 0) := by
  rcases eq_or_ne i k with rfl | hik
  · have hjk : ∀ h : i < j, ¬ (j = i) := fun h he => by omega
    by_cases hij : i < j
    · by_cases hq : collidePair l i j
      · rw [if_pos hij, if_pos hq, if_pos rfl, if_neg (hjk hij), add_zero,
          if_pos ⟨rfl, hij, hq⟩, if_neg (fun hc => hjk hij hc.1), add_zero]
      · rw [if_pos hij, if_neg hq, if_neg (fun hc => hq hc.2.2),
          if_neg (fun hc => hjk hij hc.1), add_zero]
    · rw [if_neg hij, if_neg (fun hc => hij hc.2.1),
        if_neg (fun hc => absurd hc.2.1 (lt_irrefl _)), add_zero]
  · rcases eq_or_ne j k with rfl | hjk
    · by_cases hij : i < j
      · by_cases hq : collidePair l i j
        · have hq' : collidePair l j i := (collidePair_comm l i j).mp hq
          rw [if_pos hij, if_pos hq, if_neg hik, if_pos rfl, zero_add,
            if_neg (fun hc => hik hc.1), if_pos ⟨rfl, hij, hq'⟩, zero_add]
        · have hq' : ¬ collidePair l j i :=
            fun hc => hq ((collidePair_comm l j i).mp hc)
          rw [if_pos hij, if_neg hq, if_neg (fun hc => hik hc.1),
            if_neg (fun hc => hq' hc.2.2), add_zero]
      · rw [if_neg hij, if_neg (fun hc => hik hc.1),
          if_neg (fun hc => hij hc.2.1), add_zero]
    · by_cases hij : i < j
      · by_cases hq : collidePair l i j
        · rw [if_pos hij, if_pos hq, if_neg hik, if_neg hjk, add_zero,
            if_neg (fun hc => hik hc.1), if_neg (fun hc => hjk hc.1), add_zero]
        · rw [if_pos hij, if_neg hq, if_neg (fun hc => hik hc.1),
            if_neg (fun hc => hjk hc.1), add_zero]
      · rw [if_neg hij, if_neg (fun hc => hik hc.1),
          if_neg (fun hc => hjk hc.1), add_zero]

/-- Summing the per-pair contributions over the loop's pair enumeration
gives exactly the total damage of entity `k`. -/
theorem pairContrib_pairsList (l : List Model) (k : ℕ) (hk : k < l.length) :
    pairContrib l k (pairsList l.length) = totalDamage l k := by
  have hA : pairContrib l k (pairsList l.length) =
      ∑ i ∈ Finset.range l.length, ∑ j ∈ Finset.range l.length,
        if i < j then
          (if collidePair l i j then
            (if i = k then (l.getD j Model.init).damage else 0) +
            (if j = k then (l.getD i Model.init).damage else 0)
          else 0)
        else 0 := by
    unfold pairContrib pairsList
    rw [List.map_flatMap, List.flatMap_def, List.sum_flatten, List.map_map,
      sum_map_range]
    refine Finset.sum_congr rfl ?_
    intro i _
    dsimp only [Function.comp]
    rw [List.map_map, sum_map_filter, sum_map_range]
    refine Finset.sum_congr rfl ?_
    intro j _
    simp only [decide_eq_true_eq, Function.comp]
  rw [hA]
  calc
    (∑ i ∈ Finset.range l.length, ∑ j ∈ Finset.range l.length,
        if i < j then
          (if collidePair l i j then
            (if i = k then (l.getD j Model.init).damage else 0) +
            (if j = k then (l.getD i Model.init).damage else 0)
          else 0)
        else 0)
      = ∑ i ∈ Finset.range l.length, ∑ j ∈ Finset.range l.length,
          ((if i = k ∧ (k < j ∧ collidePair l k j) then
              (l.getD j Model.init).damage else 0) +
           (if j = k ∧ (i < k ∧ collidePair l k i) then
              (l.getD i Model.init).damage else 0)) := by
        refine Finset.sum_congr rfl fun i _ => Finset.sum_congr rfl fun j _ => ?_
        exact pair_term_split l k i j
    _ = (∑ i ∈ Finset.range l.length, ∑ j ∈ Finset.range l.length,
          if i = k ∧ (k < j ∧ collidePair l k j) then
            (l.getD j Model.init).damage else 0) +
        (∑ i ∈ Finset.range l.length, ∑ j ∈ Finset.range l.length,
          if j = k ∧ (i < k ∧ collidePair l k i) then
            (l.getD i Model.init).damage else 0) := by
        rw [← Finset.sum_add_distrib]
        refine Finset.sum_congr rfl fun i _ => ?_
        rw [← Finset.sum_add_distrib]
    _ = (∑ j ∈ Finset.range l.length,
          if k < j ∧ collidePair l k j then (l.getD j Model.init).damage else 0) +
        (∑ i ∈ Finset.range l.length,
          if i < k ∧ collidePair l k i then (l.getD i Model.init).damage else 0) := by
        congr 1
        · have hinner : ∀ i, (∑ j ∈ Finset.range l.length,
              if i = k ∧ (k < j ∧ collidePair l k j) then
                (l.getD j Model.init).damage else 0) =
              if i = k then (∑ j ∈ Finset.range l.length,
                if k < j ∧ collidePair l k j then
                  (l.getD j Model.init).damage else 0) else 0 := by
            intro i
            by_cases hik : i = k
            · subst hik
              simp
            · simp [hik]
          rw [Finset.sum_congr rfl fun i _ => hinner i]
          rw [Finset.sum_ite_eq' (Finset.range l.length) k]
          rw [if_pos (Finset.mem_range.mpr hk)]
        · refine Finset.sum_congr rfl fun i _ => ?_
          have : ∀ j, (if j = k ∧ (i < k ∧ collidePair l k i) then
              (l.getD i Model.init).damage else 0) =
              if j = k then (if i < k ∧ collidePair l k i then
                (l.getD i Model.init).damage else 0) else 0 := by
            intro j
            by_cases hjk : j = k
            · subst hjk
              simp
            · simp [hjk]
          rw [Finset.sum_congr rfl fun j _ => this j]
          rw [Finset.sum_ite_eq' (Finset.range l.length) k]
          rw [if_pos (Finset.mem_range.mpr hk)]
    _ = totalDamage l k := by
        unfold totalDamage
        rw [← Finset.sum_add_distrib]
        refine Finset.sum_congr rfl fun j _ => ?_
        by_cases hq : collidePair l k j
        · rcases lt_trichotomy j k with h | h | h
          · rw [if_neg (fun hc => absurd hc.1 (by omega)), if_pos ⟨h, hq⟩,
              zero_add, if_pos ⟨by omega, hq⟩]
          · rw [if_neg (fun hc => absurd hc.1 (by omega)),
              if_neg (fun hc => absurd hc.1 (by omega)), add_zero,
              if_neg (fun hc => hc.1 h)]
          · rw [if_pos ⟨h, hq⟩, if_neg (fun hc => absurd hc.1 (by omega)),
              add_zero, if_pos ⟨by omega, hq⟩]
        · rw [if_neg (fun hc => hq hc.2), if_neg (fun hc => hq hc.2), add_zero,
            if_neg (fun hc => hq hc.2)]

/-- C1: one call to `RunCollisionDetection` examines each unordered pair of
distinct entities exactly once (the loop's visit list is duplicate-free
and contains exactly the index pairs `i < j < n`), and — whenever the pass
completes — leaves every entity unchanged except that its health has
decreased by exactly the sum of the damages of the other entities that
overlap it with a differing label; a pair sharing the same label
contributes nothing even when overlapping. -/
theorem claim_C1_resolveCollisions (l l' : List Model)
    (hok : RunCollisionDetection l = Except.ok l') :
    l'.length = l.length ∧
    (∀ k, k < l.length → l'.getD k Model.init =
      { l.getD k Model.init with
          health := (l.getD k Model.init).health - totalDamage l k }) ∧
    (∀ i j : ℕ, (pairsList l.length).Nodup ∧
      ((i, j) ∈ pairsList l.length ↔ i < j ∧ j < l.length)) := by
  unfold RunCollisionDetection at hok
  obtain ⟨hlen, hval⟩ := foldl_collision_spec l (pairsList l.length) l l'
    (fun p hp => by
      have hm := mem_pairsList.mp hp
      exact ⟨lt_trans hm.1 hm.2, hm.2, Nat.ne_of_lt hm.1⟩)
    rfl (fun k _ => rfl) hok
  refine ⟨hlen, fun k hk => ?_, fun i j => pairsList_once l.length i j⟩
  rw [hval k hk, pairContrib_pairsList l k hk]

/-- The collision example of the spec: health 10, damage 1 at (1, 1). -/
def colA : Model :=
  { Model.init with
      x := some 1, y := some 1, health := 10, damage := 1, label := "SOME LABEL" }

/-- The collision example of the spec: health 5, damage 2 at (1, 1). -/
def colB : Model :=
  { Model.init with
      x := some 1, y := some 1, health := 5, damage := 2, label := "DIFFERENT LABEL" }

/-- `colA` after the pass: lost `colB`'s damage 2. -/
def colA2 : Model := { colA with health := 8 }

/-- `colB` after the pass: lost `colA`'s damage 1. -/
def colB2 : Model := { colB with health := 4 }

/-- Witness for C1 on the spec's example: two colliding different-label
entities with healths 10 and 5 and damages 1 and 2 end the pass with
healths 8 and 4, matching the characterisation through `totalDamage`. -/
theorem claim_C1_resolveCollisions_witness :
    RunCollisionDetection [colA, colB] = Except.ok [colA2, colB2] ∧
    colA2 = { colA with health := colA.health - totalDamage [colA, colB] 0 } ∧
    colB2 = { colB with health := colB.health - totalDamage [colA, colB] 1 } ∧
    colA2.health = 8 ∧ colB2.health = 4 := by
  have hcol : HaveObjectsCollided colA colB = Except.ok true := by
    have r1 : pythonRound 1 = 1 := by norm_num [pythonRound]
    unfold HaveObjectsCollided
    rw [if_neg (by decide)]
    show Except.ok _ = _
    rw [r1]
    decide
  have hok : RunCollisionDetection [colA, colB] = Except.ok [colA2, colB2] := by
    unfold RunCollisionDetection
    rw [show pairsList (List.length [colA, colB]) = [(0, 1)] from rfl]
    rw [show List.foldlM collisionStep [colA, colB] [(0, 1)] =
      collisionStep [colA, colB] (0, 1) >>= fun m => Except.ok m from rfl]
    unfold collisionStep
    dsimp only
    rw [show ([colA, colB].getD 0 Model.init) = colA from rfl,
      show ([colA, colB].getD 1 Model.init) = colB from rfl, hcol]
    simp only [Except.bind, Except.instMonad]
    rw [if_pos (by decide)]
    decide
  obtain ⟨-, hval, -⟩ := claim_C1_resolveCollisions [colA, colB] [colA2, colB2] hok
  have h0 := hval 0 (by norm_num)
  have h1 := hval 1 (by norm_num)
  refine ⟨hok, ?_, ?_, by decide, by decide⟩
  · simpa using h0
  · simpa using h1
